import Mathlib

/-
Verification of the search subsystem of the knowledge-base repository
(packages/knowledge_api/search.py) against its natural-language
specification.

The embedding models Python strings as lists of characters (Python indexes
strings by code point), the Whoosh index as a list of stored documents,
Whoosh query trees as an inductive type, and the jieba segmenter as an
abstract function parameter (its output on concrete inputs is instantiated
explicitly in concrete evaluations).  The configuration is the repository
default: settings.chinese_analyzer = True, settings.min_word_len = 1.
-/

set_option maxRecDepth 40000

namespace KB

/-- Python strings, modelled as lists of code points. -/
abbrev Text := List Char

/-- Python str.strip(): remove leading and trailing whitespace. -/
def strip (s : Text) : Text :=
  ((s.dropWhile Char.isWhitespace).reverse.dropWhile Char.isWhitespace).reverse

/-- Python substring test `pat in s`. -/
def containsSub (s pat : Text) : Bool :=
  (List.range (s.length + 1)).any (fun i => pat.isPrefixOf (s.drop i))

/-- Python s.find(pat) for pat occurring in s: index of the first occurrence
(0 when pat does not occur; the code only reads it under a containment guard). -/
def firstIndexOf (s pat : Text) : Nat :=
  match (List.range (s.length + 1)).find? (fun i => pat.isPrefixOf (s.drop i)) with
  | some i => i
  | none => 0

/-- Python s.rfind(c): index of the last occurrence of character c, if any. -/
def lastIndexOfChar (s : Text) (c : Char) : Option Nat :=
  ((List.range s.length).reverse).find? (fun i => s.getD i ' ' == c)

/-- Python slice s[a:b] (for code-point indices). -/
def slice (s : Text) (a b : Nat) : Text := (s.take b).drop a

/-- Fuel-driven body of replaceAll; the fuel is the length of the scanned
string, which bounds the number of steps since every step consumes at least
one character. -/
def replaceAllAux (pat rep : Text) : Nat → Text → Text
  | 0, s => s
  | fuel + 1, s =>
    match s with
    | [] => []
    | c :: rest =>
      if pat ≠ [] && pat.isPrefixOf (c :: rest)
      then rep ++ replaceAllAux pat rep fuel ((c :: rest).drop pat.length)
      else c :: replaceAllAux pat rep fuel rest

/-- Python s.replace(pat, rep): replace all non-overlapping occurrences of
pat, scanning left to right. -/
def replaceAll (pat rep s : Text) : Text := replaceAllAux pat rep s.length s

/-- The document record supplied to the index writer (the dict shape used by
add_document / update_document / rebuild_index in search.py, with the id
already a string via str(document["id"])). -/
structure Doc where
  id : Text
  title : Text
  content : Text
  category : Text
  source_type : Text
  author : Text
  file_path : Text
  created_at : Text
  updated_at : Text
deriving Repr, DecidableEq

/-- Whoosh field declaration flags relevant to the claims: whether the field
value is stored verbatim for retrieval at query time, and whether the field
is marked unique (used by Whoosh update_document to find entries to
supersede). -/
structure FieldDecl where
  stored : Bool
  unique : Bool
deriving Repr, DecidableEq

/-- SearchEngine._create_schema (search.py lines 66-78).  Stored and unique
flags exactly as the Whoosh constructors are invoked there: fields.ID and
fields.TEXT default to unique=False, and fields.TEXT defaults to
stored=False, so content (fields.TEXT(analyzer=...)) is NOT stored and no
field is unique. -/
def create_schema : List (String × FieldDecl) :=
  [ ("id", ⟨true, false⟩)
  , ("title", ⟨true, false⟩)
  , ("content", ⟨false, false⟩)
  , ("category", ⟨true, false⟩)
  , ("source_type", ⟨true, false⟩)
  , ("author", ⟨true, false⟩)
  , ("file_path", ⟨true, false⟩)
  , ("created_at", ⟨true, false⟩)
  , ("updated_at", ⟨true, false⟩) ]

/-- Whether the schema stores a field verbatim. -/
def schemaStored (f : String) : Bool :=
  match create_schema.lookup f with
  | some fd => fd.stored
  | none => false

/-- The schema fields marked unique (none, for this schema). -/
def uniqueFieldNames : List String :=
  (create_schema.filter (fun p => p.2.unique)).map (fun p => p.1)

/-- The raw value the writer put into a field of a document. -/
def rawFieldValue (d : Doc) : String → Text
  | "id" => d.id
  | "title" => d.title
  | "content" => d.content
  | "category" => d.category
  | "source_type" => d.source_type
  | "author" => d.author
  | "file_path" => d.file_path
  | "created_at" => d.created_at
  | "updated_at" => d.updated_at
  | _ => []

/-- Whoosh Hit.get(field, ""): a hit exposes only STORED fields; a field the
schema does not store reads as the empty-string default. -/
def hitGet (d : Doc) (f : String) : Text :=
  if schemaStored f then rawFieldValue d f else []

/-- List-comprehension term extraction shared by _build_query (lines
197-198, over jieba.cut_for_search) and _generate_excerpt (lines 285-286,
over jieba.cut): strip each segment and keep those of length at least
settings.min_word_len. -/
def stripFilterTerms (seg : Text → List Text) (minLen : Nat) (s : Text) : List Text :=
  ((seg s).filter (fun w => minLen ≤ (strip w).length)).map strip

/-- ChineseAnalyzer.__call__ (search.py lines 34-53), token texts: each
jieba.cut_for_search segment is stripped and kept when its length is at
least settings.min_word_len.  This is the analyzer used to index the title
and content fields. -/
def chineseAnalyze (seg : Text → List Text) (minLen : Nat) (s : Text) : List Text :=
  ((seg s).map strip).filter (fun w => minLen ≤ w.length)

/-- Sentence terminators used by the excerpt window adjustment
(search.py lines 312 and 319). -/
def isTerminator (c : Char) : Bool :=
  c == '。' || c == '！' || c == '？' || c == '\n'

/-- Best-match scan of _generate_excerpt (lines 290-301): for each query
term occurring verbatim in the content record its first position and a score
equal to the term length; keep the strictly highest score.  Returns
(best position if any, best score), modelling best_pos = -1 by none. -/
def bestMatchScan (content : Text) (terms : List Text) : Option Nat × Nat :=
  terms.foldl
    (fun acc term =>
      if containsSub content term then
        let pos := firstIndexOf content term
        let score := term.length
        if acc.2 < score then (some pos, score) else acc
      else acc)
    (none, 0)

/-- Backward window adjustment (lines 309-314): for i in
range(start, max(0, start-50), -1), the first i with content[i] a sentence
terminator sets start to i+1. -/
def adjustStart (content : Text) (start : Nat) : Nat :=
  if 0 < start then
    let m := start - 50
    match ((List.range' (m + 1) (start - m)).reverse).find?
        (fun i => isTerminator (content.getD i ' ')) with
    | some i => i + 1
    | none => start
  else start

/-- Forward window adjustment (lines 316-321): for i in
range(end, min(len(content), end+50)), the first i with content[i] a
sentence terminator sets end to i+1. -/
def adjustEnd (content : Text) (e : Nat) : Nat :=
  if e < content.length then
    match (List.range' e (min content.length (e + 50) - e)).find?
        (fun i => isTerminator (content.getD i ' ')) with
    | some i => i + 1
    | none => e
  else e

/-- The three-dot ellipsis marker "..." added at cut boundaries. -/
def dots : Text := ['.', '.', '.']

/-- The markdown-bold highlight wrapper: two asterisks around the term. -/
def boldWrap (t : Text) : Text := '*' :: '*' :: (t ++ ['*', '*'])

/-- SearchEngine._generate_excerpt (search.py lines 250-354), with the hit
field access already resolved to the content and title texts (hit.get with
empty-string default, see hitGet), and jieba.cut abstracted as segCut.
Mirrors the source line by line: title fallback for empty content; term
scan; windowed, sentence-adjusted, highlighted excerpt with ellipsis at cut
boundaries when a term is found; head truncation (cutting only at the last
ideographic full stop past the midpoint, else appending an ellipsis)
otherwise. -/
def generate_excerpt (segCut : Text → List Text) (minLen : Nat)
    (query_str content title : Text) (max_length : Nat) : Text :=
  if content.isEmpty then
    title.take max_length
  else
    let query_terms := stripFilterTerms segCut minLen query_str
    let best := bestMatchScan content query_terms
    match best.1 with
    | some best_pos =>
      let start := adjustStart content (best_pos - max_length / 2)
      let e := adjustEnd content (min content.length (best_pos + max_length / 2))
      let excerpt := strip (slice content start e)
      let highlighted := query_terms.foldl
        (fun ex term => if containsSub ex term then replaceAll term (boldWrap term) ex else ex)
        excerpt
      let withLead := if 0 < start then dots ++ highlighted else highlighted
      if e < content.length then withLead ++ dots else withLead
    | none =>
      if content.length ≤ max_length then strip content
      else
        let excerpt := content.take max_length
        match lastIndexOfChar excerpt '。' with
        | some last =>
          if max_length / 2 < last then strip (excerpt.take (last + 1))
          else strip (excerpt ++ dots)
        | none => strip (excerpt ++ dots)

mutual
/-- Whoosh query trees as built by _build_query: exact Term, Wildcard
(*term* substring form, represented by the inner term), FuzzyTerm with a
maximum edit distance, Or / And over lists of sub-queries, and a boosted
sub-query (with_boost). -/
inductive Query where
  | term : String → Text → Query
  | wildcard : String → Text → Query
  | fuzzy : String → Text → Nat → Query
  | orQ : QueryList → Query
  | andQ : QueryList → Query
  | boost : Query → ℚ → Query
inductive QueryList where
  | nil : QueryList
  | cons : Query → QueryList → QueryList
end

/-- Build a QueryList from a Lean list of sub-queries. -/
def QueryList.ofList : List Query → QueryList
  | [] => QueryList.nil
  | q :: qs => QueryList.cons q (QueryList.ofList qs)

/-- SearchEngine._build_query (search.py lines 184-248), in the default
configuration (settings.chinese_analyzer = True), with jieba.cut_for_search
abstracted as seg: tokenize the query string with the min-length filter,
fall back to the raw string when no terms survive, build per term an exact
Term, a *term* Wildcard and (for terms of length at least 2) a FuzzyTerm
with maxdist 1 against both title and content, boost the title union by
2.0, Or-combine with the content union (Term on title with the raw string
if both unions are empty), and And the category / source_type exact filters
when given and non-empty (Python truthiness). -/
def build_query (seg : Text → List Text) (minLen : Nat) (query_str : Text)
    (category source_type : Option Text) : Query :=
  let query_terms0 := stripFilterTerms seg minLen query_str
  let query_terms := if query_terms0.isEmpty then [query_str] else query_terms0
  let title_queries := query_terms.flatMap (fun t =>
    [Query.term "title" t, Query.wildcard "title" t]
      ++ (if 2 ≤ t.length then [Query.fuzzy "title" t 1] else []))
  let content_queries := query_terms.flatMap (fun t =>
    [Query.term "content" t, Query.wildcard "content" t]
      ++ (if 2 ≤ t.length then [Query.fuzzy "content" t 1] else []))
  let title_query : Option Query :=
    if title_queries.isEmpty then none
    else some (Query.orQ (QueryList.ofList title_queries))
  let content_query : Option Query :=
    if content_queries.isEmpty then none
    else some (Query.orQ (QueryList.ofList content_queries))
  let main_queries : List Query :=
    (match title_query with
     | some tq => [Query.boost tq 2]
     | none => [])
    ++ (match content_query with
     | some cq => [cq]
     | none => [])
  let main_query :=
    if main_queries.isEmpty then Query.term "title" query_str
    else Query.orQ (QueryList.ofList main_queries)
  let filters : List Query :=
    (match category with
     | some c => if c.isEmpty then [] else [Query.term "category" c]
     | none => [])
    ++ (match source_type with
     | some st => if st.isEmpty then [] else [Query.term "source_type" st]
     | none => [])
  if filters.isEmpty then main_query
  else Query.andQ (QueryList.ofList (main_query :: filters))

/-- The three per-term sub-queries of the specified query-building
algorithm, against one field. -/
def subQueriesOn (f : String) (t : Text) : List Query :=
  [Query.term f t, Query.wildcard f t] ++ (if 2 ≤ t.length then [Query.fuzzy f t 1] else [])

/-- The query-building algorithm as the specification words it (for
comparison with build_query): tokenize with the same tokenizer as indexing
(chineseAnalyze), fall back to the raw string on zero terms, union the
three sub-queries per term per field, boost the title union by 2.0 and
Or-combine with the content union, defaulting to an exact title match on
the raw string when both unions are empty; then And the exact-match
filters. -/
def build_query_spec (seg : Text → List Text) (minLen : Nat) (query_str : Text)
    (category source_type : Option Text) : Query :=
  let toks := chineseAnalyze seg minLen query_str
  let terms := if toks.isEmpty then [query_str] else toks
  let title_union := terms.flatMap (subQueriesOn "title")
  let content_union := terms.flatMap (subQueriesOn "content")
  let main :=
    if title_union.isEmpty && content_union.isEmpty then Query.term "title" query_str
    else Query.orQ (QueryList.ofList
      ((if title_union.isEmpty then []
        else [Query.boost (Query.orQ (QueryList.ofList title_union)) 2])
        ++ (if content_union.isEmpty then []
        else [Query.orQ (QueryList.ofList content_union)])))
  let filters : List Query :=
    (match category with
     | some c => if c.isEmpty then [] else [Query.term "category" c]
     | none => [])
    ++ (match source_type with
     | some st => if st.isEmpty then [] else [Query.term "source_type" st]
     | none => [])
  if filters.isEmpty then main
  else Query.andQ (QueryList.ofList (main :: filters))

/-- Indexed terms of each schema field for a document: ID fields (id,
category, source_type) hold their value as a single untokenized term; TEXT
fields are tokenized by the analyzer. -/
def fieldTokens (tok : Text → List Text) (d : Doc) : String → List Text
  | "id" => [d.id]
  | "title" => tok d.title
  | "content" => tok d.content
  | "category" => [d.category]
  | "source_type" => [d.source_type]
  | "author" => tok d.author
  | "file_path" => tok d.file_path
  | _ => []

/-- Fuel-driven Levenshtein distance; the fuel (sum of both lengths) bounds
the recursion since every call consumes at least one character. -/
def levAux : Nat → Text → Text → Nat
  | 0, a, b => a.length + b.length
  | _ + 1, [], b => b.length
  | _ + 1, a :: as, [] => (a :: as).length
  | fuel + 1, a :: as, b :: bs =>
    if a == b then levAux fuel as bs
    else 1 + min (levAux fuel as (b :: bs)) (min (levAux fuel (a :: as) bs) (levAux fuel as bs))

/-- Levenshtein edit distance between two texts. -/
def levDist (a b : Text) : Nat := levAux (a.length + b.length) a b

/-- Whoosh FuzzyTerm(field, t, maxdist) with the default prefixlength=1: an
indexed token matches when it shares the first character with the term and
is within maxdist edits of it. -/
def fuzzyMatch (t w : Text) (maxdist : Nat) : Bool :=
  t.take 1 == w.take 1 && levDist t w ≤ maxdist

mutual
/-- Whether a document satisfies a query: Term membership in the indexed
tokens of the field, Wildcard *t* as substring of a token, FuzzyTerm as bounded
edit distance, Or / And as union / intersection, boost not affecting
matching. -/
def satisfies (tok : Text → List Text) : Query → Doc → Bool
  | .term f t, d => (fieldTokens tok d f).contains t
  | .wildcard f t, d => (fieldTokens tok d f).any (fun w => containsSub w t)
  | .fuzzy f t k, d => (fieldTokens tok d f).any (fun w => fuzzyMatch t w k)
  | .orQ qs, d => satisfiesAny tok qs d
  | .andQ qs, d => satisfiesAll tok qs d
  | .boost q _, d => satisfies tok q d
termination_by structural q => q
def satisfiesAny (tok : Text → List Text) : QueryList → Doc → Bool
  | .nil, _ => false
  | .cons q qs, d => satisfies tok q d || satisfiesAny tok qs d
termination_by structural qs => qs
def satisfiesAll (tok : Text → List Text) : QueryList → Doc → Bool
  | .nil, _ => true
  | .cons q qs, d => satisfies tok q d && satisfiesAll tok qs d
termination_by structural qs => qs
end

/-- Ranked hits: a document together with its relevance score. -/
abbrev RHit := Doc × ℚ

/-- Descending-score order on ranked hits. -/
def scoreGe (a b : RHit) : Prop := b.2 ≤ a.2

instance : DecidableRel scoreGe := fun a b => inferInstanceAs (Decidable (b.2 ≤ a.2))

instance : IsTotal RHit scoreGe := ⟨fun a b => le_total b.2 a.2⟩

instance : IsTrans RHit scoreGe := ⟨fun _ _ _ h1 h2 => le_trans h2 h1⟩

/-- Whoosh searcher.search(query, limit=n): every document satisfying the
query, scored (scoring function abstracted), ordered by descending score
with ties keeping index-internal order, truncated to the top n. -/
def exec_search (score : Doc → ℚ) (m : Doc → Bool) (idx : List Doc) (n : Nat) : List RHit :=
  (List.insertionSort scoreGe ((idx.filter m).map (fun d => (d, score d)))).take n

/-- len(results) (Whoosh Results length): the number of documents matching
the query, independent of the retrieval limit. -/
def resultsTotal (m : Doc → Bool) (idx : List Doc) : Nat := (idx.filter m).length

/-- The body of SearchEngine.search (lines 156-178) on its happy path:
retrieve up to limit+offset ranked hits, slice [offset, offset+limit) and
pair with the total match count. -/
def search_core (score : Doc → ℚ) (m : Doc → Bool) (idx : List Doc)
    (limit offset : Nat) : List RHit × Nat :=
  let results := exec_search score m idx (limit + offset)
  ((results.drop offset).take limit, resultsTotal m idx)

/-- The match predicate induced by the built query, with the indexing
analyzer supplying the field tokens. -/
def query_matches (seg : Text → List Text) (minLen : Nat) (query_str : Text)
    (category source_type : Option Text) : Doc → Bool :=
  fun d => satisfies (chineseAnalyze seg minLen)
    (build_query seg minLen query_str category source_type) d

/-- SearchEngine.search on its happy path, end to end: build the query and
run the ranked, paginated retrieval. -/
def engine_search (seg : Text → List Text) (minLen : Nat) (score : Doc → ℚ)
    (idx : List Doc) (query_str : Text) (category source_type : Option Text)
    (limit offset : Nat) : List RHit × Nat :=
  search_core score (query_matches seg minLen query_str category source_type) idx limit offset

/-- An abstract Python exception. -/
inductive PyErr where
  | exc : PyErr
deriving Repr, DecidableEq

/-- The result dict built per hit by SearchEngine.search (lines 166-176). -/
structure HitDict where
  id : Text
  title : Text
  file_path : Text
  category : Text
  source_type : Text
  author : Text
  updated_at : Text
  score : ℚ
  excerpt : Text
deriving Repr, DecidableEq

/-- The body of SearchEngine.search inside its try block, with the three
fallible stages abstracted: query building, query execution (returning the
retrieved ranked hits and the total), and per-hit extraction of the result
dict over the slice [offset, offset+limit). -/
def search_body (build : Except PyErr Query)
    (exec : Query → Except PyErr (List RHit × Nat))
    (extract : RHit → Except PyErr HitDict)
    (limit offset : Nat) : Except PyErr (List HitDict × Nat) :=
  match build with
  | .error e => .error e
  | .ok q =>
    match exec q with
    | .error e => .error e
    | .ok (results, total) =>
      match ((results.drop offset).take limit).mapM extract with
      | .error e => .error e
      | .ok hits => .ok (hits, total)

/-- SearchEngine.search (lines 146-182): the try/except around the whole
body converts any exception into the empty result ([], 0); a successful
body is returned as is. -/
def search_guarded (build : Except PyErr Query)
    (exec : Query → Except PyErr (List RHit × Nat))
    (extract : RHit → Except PyErr HitDict)
    (limit offset : Nat) : List HitDict × Nat :=
  match search_body build exec extract limit offset with
  | .ok r => r
  | .error _ => ([], 0)

/-- Python str(n) for a document id. -/
def natText (n : Nat) : Text := (Nat.repr n).data

/-- The operations a writer transaction can stage. -/
inductive WriteOp where
  | addDoc : Doc → WriteOp
  | updateDoc : Doc → WriteOp
  | deleteTerm : String → Text → WriteOp
deriving Repr, DecidableEq

/-- The search index: the list of committed documents, in commit order. -/
abbrev Index := List Doc

/-- Effect of one committed writer operation.  add_document appends;
update_document follows Whoosh: delete every document agreeing with the new
one on some schema field marked unique (for this schema there is none),
then add; delete_by_term removes the documents holding the term in the
field. -/
def applyOp (tok : Text → List Text) (idx : Index) : WriteOp → Index
  | .addDoc d => idx ++ [d]
  | .updateDoc d =>
    (idx.filter (fun e =>
      !(uniqueFieldNames.any (fun f => rawFieldValue e f == rawFieldValue d f)))) ++ [d]
  | .deleteTerm f t => idx.filter (fun e => !((fieldTokens tok e f).contains t))

/-- A Whoosh writer transaction: the committed index it was opened on plus
the staged, not yet visible operations. -/
structure WriterTx where
  committed : Index
  pending : List WriteOp
deriving Repr, DecidableEq

/-- Stage one more operation in the transaction. -/
def WriterTx.stage (w : WriterTx) (op : WriteOp) : WriterTx :=
  ⟨w.committed, w.pending ++ [op]⟩

/-- writer.commit(): apply all staged operations to the committed index. -/
def WriterTx.commit (w : WriterTx) (tok : Text → List Text) : Index :=
  w.pending.foldl (applyOp tok) w.committed

/-- writer.cancel(): discard all staged operations. -/
def WriterTx.cancel (w : WriterTx) : Index := w.committed

/-- add_document (lines 90-110): open a writer, stage the add, commit; on an
exception inside the try block, cancel and re-raise.  The failure parameter
injects an exception raised before the commit completed. -/
def add_document_run (tok : Text → List Text) (idx : Index) (d : Doc)
    (failure : Option PyErr) : Except PyErr Unit × Index :=
  let w := (WriterTx.mk idx []).stage (.addDoc d)
  match failure with
  | some e => (.error e, w.cancel)
  | none => (.ok (), w.commit tok)

/-- update_document (lines 112-132): same shape with writer.update_document. -/
def update_document_run (tok : Text → List Text) (idx : Index) (d : Doc)
    (failure : Option PyErr) : Except PyErr Unit × Index :=
  let w := (WriterTx.mk idx []).stage (.updateDoc d)
  match failure with
  | some e => (.error e, w.cancel)
  | none => (.ok (), w.commit tok)

/-- delete_document (lines 134-144): writer.delete_by_term("id",
str(document_id)) then commit, cancelling and re-raising on exception. -/
def delete_document_run (tok : Text → List Text) (idx : Index) (did : Nat)
    (failure : Option PyErr) : Except PyErr Unit × Index :=
  let w := (WriterTx.mk idx []).stage (.deleteTerm "id" (natText did))
  match failure with
  | some e => (.error e, w.cancel)
  | none => (.ok (), w.commit tok)

/-- The committed effect of a successful update_document call. -/
def update_document (tok : Text → List Text) (idx : Index) (d : Doc) : Index :=
  (update_document_run tok idx d none).2

/-- rebuild_index (lines 356-399): the old index is closed, deleted and
recreated empty; all documents are staged into one writer batch and
committed; an exception after k staged adds cancels the whole batch
(leaving the fresh index at its last committed, empty state) and
propagates. -/
def rebuild_index_run (tok : Text → List Text) (docs : List Doc)
    (failure : Option (Nat × PyErr)) : Except PyErr Unit × Index :=
  let w0 : WriterTx := ⟨[], []⟩
  match failure with
  | some (k, e) =>
    (.error e, ((docs.take k).foldl (fun w d => w.stage (.addDoc d)) w0).cancel)
  | none => (.ok (), (docs.foldl (fun w d => w.stage (.addDoc d)) w0).commit tok)

/-- The stats record returned by get_stats. -/
structure Stats where
  total_documents : Nat
  categories : List (Text × Nat)
  sources : List (Text × Nat)
deriving Repr, DecidableEq

/-- Python dict counter update m[k] = m.get(k, 0) + 1, insertion-ordered. -/
def bumpCount (m : List (Text × Nat)) (k : Text) : List (Text × Nat) :=
  if m.any (fun p => p.1 == k) then m.map (fun p => if p.1 == k then (p.1, p.2 + 1) else p)
  else m ++ [(k, 1)]

/-- The body of get_stats (lines 404-422): searcher.doc_count() plus
per-category and per-source histograms over all stored documents. -/
def get_stats_core (idx : Index) : Stats :=
  { total_documents := idx.length
  , categories := idx.foldl (fun m d => bumpCount m d.category) []
  , sources := idx.foldl (fun m d => bumpCount m d.source_type) [] }

/-- get_stats (lines 401-430): any exception inside the try block yields the
zeroed stats record instead of propagating. -/
def get_stats_run (idx : Index) (failure : Option PyErr) : Stats :=
  match failure with
  | some _ => { total_documents := 0, categories := [], sources := [] }
  | none => get_stats_core idx

/-- The excerpt computed for a hit at query time (search.py line 175):
_generate_excerpt reads content and title through the STORED fields of the hit
(hitGet), with jieba.cut abstracted as segCut and max_length left at its
default 200. -/
def hit_excerpt (segCut : Text → List Text) (minLen : Nat) (d : Doc) (query_str : Text) : Text :=
  generate_excerpt segCut minLen query_str (hitGet d "content") (hitGet d "title") 200

/-- Concrete identity-like segmenter: the jieba output on the single-token
query and field texts used in the concrete evaluations below. -/
def segWhole : Text → List Text := fun t => [t]

/-- Concrete document used in the filter-exactness evaluation. -/
def docW : Doc := ⟨['1'], ['t'], ['c'], ['x'], ['g'], [], [], [], []⟩

/-- Concrete segmenter standing for jieba.cut("API") = ["API"] (jieba keeps
an ASCII run as one segment). -/
def segAPI : Text → List Text := fun _ => [['A', 'P', 'I']]

/-- Concrete segmenter standing for jieba.cut("API AP") =
["API", " ", "AP"]. -/
def segAPIAP : Text → List Text := fun _ => [['A', 'P', 'I'], [' '], ['A', 'P']]

/-- Concrete segmenter standing for jieba.cut("zzz") = ["zzz"]. -/
def segZ : Text → List Text := fun _ => [['z', 'z', 'z']]

/-- Concrete document whose content mentions API, as in the excerpt
highlighting test of the specification. -/
def apiDoc : Doc :=
  { id := ['1'], title := "API docs".data
  , content := "the API reference explains usage".data
  , category := "api".data, source_type := "gitlab".data, author := "dev".data
  , file_path := "api.md".data, created_at := "2024".data, updated_at := "2024".data }

/-- Concrete document used in the update/duplicate evaluation. -/
def docU : Doc :=
  { id := ['1'], title := "Doc".data, content := "body".data
  , category := "test".data, source_type := "gitlab".data, author := ['a']
  , file_path := "d.md".data, created_at := "t0".data, updated_at := "t0".data }

/-- Content longer than the excerpt limit whose only sentence terminator is
a fullwidth exclamation mark at position 150 (past the midpoint of the
200-character truncation window). -/
def c8content : Text := List.replicate 150 'a' ++ ['！'] ++ List.replicate 60 'b'


section Lemmas

/-- Staging operations never changes the committed index of a transaction. -/
theorem stage_fold_committed (docs : List Doc) (w : WriterTx) :
    (docs.foldl (fun w d => w.stage (.addDoc d)) w).committed = w.committed := by
  induction docs generalizing w with
  | nil => rfl
  | cons d ds ih => simpa [WriterTx.stage] using ih (w.stage (.addDoc d))

/-- Staging a batch of adds appends the corresponding operations. -/
theorem stage_fold_pending (docs : List Doc) (w : WriterTx) :
    (docs.foldl (fun w d => w.stage (.addDoc d)) w).pending
      = w.pending ++ docs.map WriteOp.addDoc := by
  induction docs generalizing w with
  | nil => simp
  | cons d ds ih =>
    rw [List.foldl_cons, ih (w.stage (.addDoc d))]
    simp [WriterTx.stage]

/-- Committing a batch of staged adds appends the documents in order. -/
theorem commit_addDocs (tok : Text → List Text) (c : Index) (docs : List Doc) :
    (WriterTx.mk c (docs.map WriteOp.addDoc)).commit tok = c ++ docs := by
  induction docs generalizing c with
  | nil => simp [WriterTx.commit]
  | cons d ds ih =>
    simpa [WriterTx.commit, applyOp, List.append_assoc] using ih (c ++ [d])

/-- Accumulator form of the mapM lemma below. -/
theorem mapM_loop_ok (f : RHit → HitDict) (l : List RHit) (acc : List HitDict) :
    List.mapM.loop (fun r => (Except.ok (f r) : Except PyErr HitDict)) l acc
      = Except.ok (acc.reverse ++ l.map f) := by
  induction l generalizing acc with
  | nil => simp [List.mapM.loop]; rfl
  | cons a as ih =>
    show List.mapM.loop (fun r => (Except.ok (f r) : Except PyErr HitDict)) as (f a :: acc)
        = Except.ok (acc.reverse ++ (a :: as).map f)
    rw [ih (f a :: acc)]
    simp

/-- mapM of an always-succeeding extractor is map. -/
theorem mapM_ok_map (f : RHit → HitDict) (l : List RHit) :
    (l.mapM (fun r => (Except.ok (f r) : Except PyErr HitDict))) = Except.ok (l.map f) := by
  simpa [List.mapM] using mapM_loop_ok f l []

end Lemmas

/-- Claim C1: inside SearchEngine.search, an exception raised at any stage —
query building, query execution, or hit extraction over a non-empty slice —
makes the call return the pair (empty hit list, total 0) instead of
propagating; a run in which every stage succeeds returns the extracted hits
of the slice together with the total. -/
theorem C1_search_error_handling :
    (∀ (e : PyErr) (exec : Query → Except PyErr (List RHit × Nat))
       (extract : RHit → Except PyErr HitDict) (limit offset : Nat),
      search_guarded (.error e) exec extract limit offset = ([], 0))
    ∧ (∀ (e : PyErr) (q : Query) (extract : RHit → Except PyErr HitDict) (limit offset : Nat),
      search_guarded (.ok q) (fun _ => .error e) extract limit offset = ([], 0))
    ∧ (∀ (e : PyErr) (q : Query) (rh : RHit) (rest : List RHit) (total n : Nat),
      search_guarded (.ok q) (fun _ => .ok (rh :: rest, total)) (fun _ => .error e) (n + 1) 0
        = ([], 0))
    ∧ (∀ (q : Query) (results : List RHit) (total : Nat) (f : RHit → HitDict) (limit offset : Nat),
      search_guarded (.ok q) (fun _ => .ok (results, total)) (fun r => .ok (f r)) limit offset
        = (((results.drop offset).take limit).map f, total)) := by
  refine ⟨fun e exec extract limit offset => rfl, fun e q extract limit offset => rfl,
    fun e q rh rest total n => rfl, fun q results total f limit offset => ?_⟩
  simp only [search_guarded, search_body, mapM_ok_map]

/-- Claim C10: an exception while computing statistics makes get_stats
return the zeroed record, which is exactly what it returns on a successful
run over an empty index — the return value cannot distinguish the two. -/
theorem C10_stats_degrade (idx : Index) (e : PyErr) :
    get_stats_run idx (some e) = { total_documents := 0, categories := [], sources := [] }
    ∧ get_stats_run idx (some e) = get_stats_run [] none := by
  exact ⟨rfl, rfl⟩

/-- Claim C7: every write-path operation is atomic with respect to failure:
an exception raised inside the try block of add_document, update_document or
delete_document cancels the staged change, leaves the index at its last
committed state and propagates the error; a failure after k staged adds of
the rebuild batch cancels the whole batch, leaving the freshly created index
at its last committed (empty) state, and propagates; the successful paths
commit the staged adds. -/
theorem C7_write_atomicity (tok : Text → List Text) (idx : Index) (d : Doc)
    (did : Nat) (docs : List Doc) (k : Nat) (e : PyErr) :
    add_document_run tok idx d (some e) = (.error e, idx)
    ∧ update_document_run tok idx d (some e) = (.error e, idx)
    ∧ delete_document_run tok idx did (some e) = (.error e, idx)
    ∧ rebuild_index_run tok docs (some (k, e)) = (.error e, [])
    ∧ add_document_run tok idx d none = (.ok (), idx ++ [d])
    ∧ rebuild_index_run tok docs none = (.ok (), docs) := by
  refine ⟨rfl, rfl, rfl, ?_, rfl, ?_⟩
  · simp [rebuild_index_run, WriterTx.cancel, stage_fold_committed]
  · have hkey : (docs.foldl (fun w d => w.stage (.addDoc d)) (⟨[], []⟩ : WriterTx)).commit tok
        = docs := by
      unfold WriterTx.commit
      rw [stage_fold_pending docs ⟨[], []⟩, stage_fold_committed docs ⟨[], []⟩]
      simpa [WriterTx.commit] using commit_addDocs tok [] docs
    simp [rebuild_index_run, hkey]

/-- satisfiesAll over an ofList-built query list is List.all. -/
theorem satisfiesAll_ofList (tok : Text → List Text) (qs : List Query) (d : Doc) :
    satisfiesAll tok (QueryList.ofList qs) d = qs.all (fun q => satisfies tok q d) := by
  induction qs with
  | nil => rfl
  | cons q qs ih => simp [QueryList.ofList, satisfiesAll, ih]

/-- A document satisfying a query built with a non-empty category filter
carries exactly that category value. -/
theorem build_query_category_sat (tok seg : Text → List Text) (minLen : Nat)
    (query_str : Text) (source_type : Option Text) (c : Text) (d : Doc)
    (hc : c ≠ [])
    (h : satisfies tok (build_query seg minLen query_str (some c) source_type) d = true) :
    d.category = c := by
  have hce : c.isEmpty = false := by
    cases c with
    | nil => exact absurd rfl hc
    | cons a l => rfl
  unfold build_query at h
  simp only [hce, Bool.false_eq_true, if_false, List.singleton_append,
    List.isEmpty_cons, satisfies, satisfiesAll_ofList, List.all_cons,
    Bool.and_eq_true] at h
  have h2 := h.2.1
  simp only [satisfies, fieldTokens] at h2
  simp at h2
  exact h2.symm

/-- Claim C3: for every query, filter selection and non-negative limit and
offset, search retrieves at most limit+offset ranked hits ordered by
descending score, returns exactly the slice [offset, offset+limit) of them,
and returns as total the number of all documents matching the query before
pagination (not the size of the slice or of the retrieved superset). -/
theorem C3_pagination (seg : Text → List Text) (minLen : Nat) (score : Doc → ℚ)
    (idx : List Doc) (query_str : Text) (category source_type : Option Text)
    (limit offset : Nat) :
    (exec_search score (query_matches seg minLen query_str category source_type) idx
        (limit + offset)).length ≤ limit + offset
    ∧ List.Sorted scoreGe
        (exec_search score (query_matches seg minLen query_str category source_type) idx
          (limit + offset))
    ∧ (engine_search seg minLen score idx query_str category source_type limit offset).1
        = ((exec_search score (query_matches seg minLen query_str category source_type) idx
            (limit + offset)).drop offset).take limit
    ∧ List.Sorted scoreGe
        (engine_search seg minLen score idx query_str category source_type limit offset).1
    ∧ (engine_search seg minLen score idx query_str category source_type limit offset).2
        = (idx.filter (query_matches seg minLen query_str category source_type)).length := by
  have hsorted : List.Sorted scoreGe
      (List.insertionSort scoreGe
        ((idx.filter (query_matches seg minLen query_str category source_type)).map
          (fun d => (d, score d)))) :=
    List.sorted_insertionSort scoreGe _
  refine ⟨List.length_take_le _ _, hsorted.sublist (List.take_sublist _ _), rfl, ?_, rfl⟩
  exact hsorted.sublist
    (((List.take_sublist limit _).trans (List.drop_sublist offset _)).trans
      (List.take_sublist (limit + offset) _))

/-- Claim C6: a category filter is an exact AND-combined term clause: a
document appearing in the results of a search filtered by a (non-empty)
category value necessarily stores exactly that category value, whatever the
text query matched. -/
theorem C6_filter_exactness (seg : Text → List Text) (minLen : Nat) (score : Doc → ℚ)
    (idx : List Doc) (query_str : Text) (c : Text) (source_type : Option Text)
    (limit offset : Nat) (d : Doc) (sc : ℚ)
    (hc : c ≠ [])
    (hmem : (d, sc) ∈
      (engine_search seg minLen score idx query_str (some c) source_type limit offset).1) :
    d.category = c := by
  simp only [engine_search, search_core, exec_search] at hmem
  have h4 := List.mem_of_mem_take (List.mem_of_mem_drop (List.mem_of_mem_take hmem))
  have h1 := (List.mem_insertionSort scoreGe).1 h4
  obtain ⟨d0, hd0, heq⟩ := List.mem_map.1 h1
  have hde : d0 = d := congrArg Prod.fst heq
  have hm := (List.mem_filter.1 hd0).2
  rw [hde] at hm
  exact build_query_category_sat (chineseAnalyze seg minLen) seg minLen query_str
    source_type c d hc hm

/-- Witness for C6 at a concrete index and query. -/
theorem C6_filter_exactness_witness : docW.category = ['x'] :=
  C6_filter_exactness segWhole 1 (fun _ => 0) [docW] ['t'] ['x'] none 1 0 docW 0
    (by decide) (by decide)

/-- Claim C2 evaluation: the schema indexes content but does NOT store it, so
a query-time hit exposes no content and the excerpt generator always takes
the title path: for the API document and query "API" the query-time excerpt
is the truncated title, different from the content-based excerpt the claim
requires. -/
theorem C2_content_not_stored :
    schemaStored "content" = false
    ∧ apiDoc.content ≠ []
    ∧ hitGet apiDoc "content" = []
    ∧ hit_excerpt segAPI 1 apiDoc "API".data = apiDoc.title.take 200
    ∧ hit_excerpt segAPI 1 apiDoc "API".data
        ≠ generate_excerpt segAPI 1 "API".data apiDoc.content apiDoc.title 200 := by
  decide

/-- Claim C4 evaluation: no schema field is marked unique, so Whoosh
update_document finds nothing to supersede and a second identical
update_document leaves the index with two entries for the same id and
total_documents 2, not 1. -/
theorem C4_update_duplicates :
    uniqueFieldNames = []
    ∧ update_document segWhole (update_document segWhole [] docU) docU = [docU, docU]
    ∧ ((update_document segWhole (update_document segWhole [] docU) docU).filter
        (fun e => e.id == docU.id)).length = 2
    ∧ (get_stats_core
        (update_document segWhole (update_document segWhole [] docU) docU)).total_documents
        = 2 := by
  decide

/-- Filtering on the stripped word, then stripping, is stripping then
filtering. -/
theorem filter_strip_map (minLen : Nat) (l : List Text) :
    (l.filter (fun w => minLen ≤ (strip w).length)).map strip
      = (l.map strip).filter (fun w => minLen ≤ w.length) := by
  induction l with
  | nil => rfl
  | cons a as ih =>
    by_cases h : minLen ≤ (strip a).length
    · simp [h, ih]
    · simp [h, ih]

/-- The query-string term extraction of _build_query computes exactly the
token sequence of the indexing analyzer. -/
theorem stripFilterTerms_eq_analyze (seg : Text → List Text) (minLen : Nat) (s : Text) :
    stripFilterTerms seg minLen s = chineseAnalyze seg minLen s :=
  filter_strip_map minLen (seg s)

/-- Per-term sub-query lists over a non-empty term list are non-empty. -/
theorem flatMap_subQueries_ne_nil (f : String) (ts : List Text) (h : ts ≠ []) :
    ts.flatMap (subQueriesOn f) ≠ [] := by
  cases ts with
  | nil => exact absurd rfl h
  | cons t ts => simp [subQueriesOn]

/-- Claim C5: the built query tree follows the specified algorithm — the
query string is tokenized exactly as the indexing analyzer tokenizes (with
the minimum-length filter), the raw string is the single term when
tokenization yields none, each term contributes an exact Term, a *term*
Wildcard and (for length at least 2) a maxdist-1 FuzzyTerm against both
title and content, the title union is boosted by 2.0 and Or-combined with
the content union, the query defaults to an exact title match on the raw
string when both unions are empty, and the filters are And-combined. -/
theorem C5_query_build (seg : Text → List Text) (minLen : Nat) (query_str : Text)
    (category source_type : Option Text) :
    stripFilterTerms seg minLen query_str = chineseAnalyze seg minLen query_str
    ∧ build_query seg minLen query_str category source_type
        = build_query_spec seg minLen query_str category source_type := by
  refine ⟨stripFilterTerms_eq_analyze seg minLen query_str, ?_⟩
  unfold build_query build_query_spec
  rw [stripFilterTerms_eq_analyze]
  have et : ∀ (fl : String) (ts : List Text), (ts.flatMap (fun t =>
      [Query.term fl t, Query.wildcard fl t]
        ++ (if 2 ≤ t.length then [Query.fuzzy fl t 1] else [])))
      = ts.flatMap (subQueriesOn fl) := fun fl ts => rfl
  by_cases hcase : (chineseAnalyze seg minLen query_str).isEmpty
  · simp [hcase, subQueriesOn]
  · have hemp : (chineseAnalyze seg minLen query_str).isEmpty = false := by
      simpa using hcase
    have hne : chineseAnalyze seg minLen query_str ≠ [] := by
      simpa [List.isEmpty_iff] using hcase
    have htu : ((chineseAnalyze seg minLen query_str).flatMap
        (subQueriesOn "title")).isEmpty = false := by
      simpa [List.isEmpty_iff] using flatMap_subQueries_ne_nil "title" _ hne
    have hcu : ((chineseAnalyze seg minLen query_str).flatMap
        (subQueriesOn "content")).isEmpty = false := by
      simpa [List.isEmpty_iff] using flatMap_subQueries_ne_nil "content" _ hne
    simp only [hemp, Bool.false_eq_true, if_false, et, htu, hcu, Bool.false_and,
      List.singleton_append, List.isEmpty_cons]

/-- Claim C8 counterexample: content longer than max_length with no query
term and whose only sentence terminator is a fullwidth exclamation mark past
the midpoint.  The claim predicts the truncation is cut just after that
terminator (content.take 151); the code only looks for the ideographic full
stop and instead returns the plain 200-character truncation with a trailing
ellipsis. -/
theorem C8_counterexample :
    isTerminator '！' = true
    ∧ c8content.getD 150 ' ' = '！'
    ∧ 200 / 2 < 150
    ∧ 200 < c8content.length
    ∧ (bestMatchScan c8content (stripFilterTerms segZ 1 ['z', 'z', 'z'])).1 = none
    ∧ generate_excerpt segZ 1 ['z', 'z', 'z'] c8content [] 200 ≠ c8content.take 151
    ∧ generate_excerpt segZ 1 ['z', 'z', 'z'] c8content [] 200 = c8content.take 200 ++ dots := by
  decide

/-- Claim C8 (amended): when the hit content is empty the excerpt is the
title truncated to max_length; when content is non-empty and no query term
occurs in it, the excerpt is the content when it fits within max_length
(stripped), else the max_length-truncation cut just after the last
ideographic full stop when one occurs past the midpoint — other sentence
terminators do not trigger the cut — and otherwise given a trailing
ellipsis. -/
theorem C8_truncation_fallback (seg : Text → List Text) (minLen : Nat)
    (query_str content title : Text) (max_length : Nat)
    (h1 : content ≠ [])
    (h2 : (bestMatchScan content (stripFilterTerms seg minLen query_str)).1 = none) :
    generate_excerpt seg minLen query_str [] title max_length = title.take max_length
    ∧ generate_excerpt seg minLen query_str content title max_length =
        (if content.length ≤ max_length then strip content
         else
           match lastIndexOfChar (content.take max_length) '。' with
           | some last =>
             if max_length / 2 < last then strip ((content.take max_length).take (last + 1))
             else strip (content.take max_length ++ dots)
           | none => strip (content.take max_length ++ dots)) := by
  constructor
  · rfl
  · have hc : content.isEmpty = false := by simpa [List.isEmpty_iff] using h1
    simp only [generate_excerpt, hc, Bool.false_eq_true, if_false, h2]

/-- Witness for C8 on concrete short content without the query term. -/
theorem C8_truncation_fallback_witness :
    generate_excerpt segZ 1 ['z', 'z', 'z'] ['a', 'b'] [] 200 = ['a', 'b'] := by
  have h := C8_truncation_fallback segZ 1 ['z', 'z', 'z'] ['a', 'b'] [] 200
    (by decide) (by decide)
  exact h.2.trans (by decide)

/-- Claim C9 counterexample: for content "the API reference" and query
"API AP" (terms API and AP), the query term API occurs in the extracted
window but the sequential replacement corrupts its highlight: the result is
"the ****AP**I** reference", which contains no occurrence of API wrapped as
**API**. -/
theorem C9_counterexample :
    containsSub "the API reference".data "API".data = true
    ∧ "API".data ∈ stripFilterTerms segAPIAP 1 "API AP".data
    ∧ generate_excerpt segAPIAP 1 "API AP".data "the API reference".data [] 200
        = "the ****AP**I** reference".data
    ∧ containsSub
        (generate_excerpt segAPIAP 1 "API AP".data "the API reference".data [] 200)
        (boldWrap "API".data) = false := by
  decide

/-- Claim C9 (amended): when some query term occurs in the content, the
excerpt is the stripped sentence-adjusted window around the best match, with
each query term found in it replaced globally by its **-wrapped form,
sequentially in term order (so a term overlapping an earlier replacement can
break up that earlier highlight), prefixed with an ellipsis exactly when the
window does not start at position 0 and suffixed with an ellipsis exactly
when it does not end at the content length; in particular for content
"the API reference explains usage" and query "API" the excerpt contains a
highlighted API occurrence and fits the max_length plus marker overhead. -/
theorem C9_highlight_window (seg : Text → List Text) (minLen : Nat)
    (query_str content title : Text) (max_length : Nat) (pos best_score : Nat)
    (h1 : content ≠ [])
    (h2 : bestMatchScan content (stripFilterTerms seg minLen query_str)
        = (some pos, best_score)) :
    generate_excerpt seg minLen query_str content title max_length =
      (if 0 < adjustStart content (pos - max_length / 2) then dots else [])
        ++ ((stripFilterTerms seg minLen query_str).foldl
            (fun ex term =>
              if containsSub ex term then replaceAll term (boldWrap term) ex else ex)
            (strip (slice content (adjustStart content (pos - max_length / 2))
              (adjustEnd content (min content.length (pos + max_length / 2))))))
        ++ (if adjustEnd content (min content.length (pos + max_length / 2)) < content.length
            then dots else [])
    ∧ generate_excerpt segAPI 1 "API".data "the API reference explains usage".data [] 200
        = "the **API** reference explains usage".data
    ∧ containsSub
        (generate_excerpt segAPI 1 "API".data "the API reference explains usage".data [] 200)
        (boldWrap "API".data) = true
    ∧ (generate_excerpt segAPI 1 "API".data
        "the API reference explains usage".data [] 200).length ≤ 200 + 8 := by
  refine ⟨?_, by decide, by decide, by decide⟩
  have hc : content.isEmpty = false := by simpa [List.isEmpty_iff] using h1
  simp only [generate_excerpt, hc, Bool.false_eq_true, if_false, h2]
  by_cases hs : 0 < adjustStart content (pos - max_length / 2) <;>
    by_cases he : adjustEnd content (min content.length (pos + max_length / 2))
        < content.length <;>
      simp [hs, he]

/-- Witness for C9 on the API example of the specification. -/
theorem C9_highlight_window_witness :
    generate_excerpt segAPI 1 "API".data "the API reference explains usage".data [] 200
      = "the **API** reference explains usage".data := by
  have h := C9_highlight_window segAPI 1 "API".data
    "the API reference explains usage".data [] 200 4 3 (by decide) (by decide)
  exact h.2.1

end KB
